import Mathlib

/-!
Shallow embedding of the Elasticsearch vector-store adapter
(`src/mastra/stores/elastic-store.ts`) and proofs of its specified
properties: filter translation, metric mapping, upsert partial-failure
handling, index-creation validation, deployment detection caching,
k-NN query construction, partial updates and query-result totality.
-/

/-- JSON-like runtime values, used for metadata, filters and the query DSL.
`undef` stands for JavaScript `undefined` (distinct from `null`). -/
inductive JVal where
  | null
  | undef
  | str (s : String)
  | num (q : ℚ)
  | bool (b : Bool)
  | arr (xs : List JVal)
  | obj (fields : List (String × JVal))

/-- JavaScript `'k' in value` on an object: does the object have the key. -/
def hasKey (fields : List (String × JVal)) (k : String) : Bool :=
  fields.any (fun kv => kv.1 == k)

/-- JavaScript `value.k` on an object: the value at the key, `undefined` if absent. -/
def getKey (fields : List (String × JVal)) (k : String) : JVal :=
  match fields.find? (fun kv => kv.1 == k) with
  | some kv => kv.2
  | none => JVal.undef

/-- JavaScript `Array.isArray`. -/
def isArr : JVal → Bool
  | JVal.arr _ => true
  | _ => false

/-- Outcome of one iteration of the `buildElasticFilter` loop for one
`[key, value]` entry: either a predicate pushed onto `must`, a silent skip
(`value === null || value === undefined`), or a skip with a logged warning
(unsupported operator). -/
inductive LeafResult where
  | pred (q : JVal)
  | skipSilent
  | skipWarn

/-- The body of the `for (const [key, value] of Object.entries(filter))` loop
in `buildElasticFilter` (elastic-store.ts lines 597-631). -/
def buildLeaf (key : String) (value : JVal) : LeafResult :=
  match value with
  | JVal.null => LeafResult.skipSilent
  | JVal.undef => LeafResult.skipSilent
  | JVal.obj fields =>
      if hasKey fields "$eq" then
        LeafResult.pred (JVal.obj [("term",
          JVal.obj [("metadata." ++ key ++ ".keyword", getKey fields "$eq")])])
      else if hasKey fields "$in" && isArr (getKey fields "$in") then
        LeafResult.pred (JVal.obj [("terms",
          JVal.obj [("metadata." ++ key ++ ".keyword", getKey fields "$in")])])
      else if hasKey fields "$ne" then
        LeafResult.pred (JVal.obj [("bool", JVal.obj [("must_not",
          JVal.obj [("term",
            JVal.obj [("metadata." ++ key ++ ".keyword", getKey fields "$ne")])])])])
      else if hasKey fields "$gt" then
        LeafResult.pred (JVal.obj [("range",
          JVal.obj [("metadata." ++ key, JVal.obj [("gt", getKey fields "$gt")])])])
      else if hasKey fields "$gte" then
        LeafResult.pred (JVal.obj [("range",
          JVal.obj [("metadata." ++ key, JVal.obj [("gte", getKey fields "$gte")])])])
      else if hasKey fields "$lt" then
        LeafResult.pred (JVal.obj [("range",
          JVal.obj [("metadata." ++ key, JVal.obj [("lt", getKey fields "$lt")])])])
      else if hasKey fields "$lte" then
        LeafResult.pred (JVal.obj [("range",
          JVal.obj [("metadata." ++ key, JVal.obj [("lte", getKey fields "$lte")])])])
      else
        LeafResult.skipWarn
  | v => LeafResult.pred (JVal.obj [("term",
      JVal.obj [("metadata." ++ key ++ ".keyword", v)])])

/-- The predicate an entry contributes to the `must` array, if any. -/
def filterEntryPred (kv : String × JVal) : Option JVal :=
  match buildLeaf kv.1 kv.2 with
  | LeafResult.pred q => some q
  | _ => none

/-- Tail of `buildElasticFilter`: collect the `must` array over the entries and
wrap it in `{ bool: { must } }`, or return `undefined` when empty. -/
def buildFromEntries (entries : List (String × JVal)) : Option JVal :=
  let must := entries.filterMap filterEntryPred
  if 0 < must.length then
    some (JVal.obj [("bool", JVal.obj [("must", JVal.arr must)])])
  else
    none

/-- `buildElasticFilter` (elastic-store.ts lines 590-634). A non-object (or
null) filter returns `undefined`; a JS array is an object whose entries are
its indexed elements. -/
def buildElasticFilter : JVal → Option JVal
  | JVal.obj entries => buildFromEntries entries
  | JVal.arr xs => buildFromEntries (xs.enum.map (fun p => (toString p.1, p.2)))
  | _ => none

/-- JavaScript `String.prototype.toLowerCase` (ASCII fragment). -/
def jsToLower (s : String) : String := String.mk (s.data.map Char.toLower)

/-- `mapMetricToSimilarity` (elastic-store.ts lines 541-560): table lookup on
the lower-cased metric, defaulting to `cosine` with a warning when unknown. -/
def mapMetricToSimilarity (metric : String) : String :=
  match jsToLower metric with
  | "cosine" => "cosine"
  | "euclidean" => "l2_norm"
  | "dotproduct" => "dot_product"
  | "dot_product" => "dot_product"
  | _ => "cosine"

/-- `mapSimilarityToMetric` (elastic-store.ts lines 567-575): reverse table
lookup, defaulting to `cosine` when the similarity is unmapped. -/
def mapSimilarityToMetric (similarity : String) : String :=
  match similarity with
  | "cosine" => "cosine"
  | "l2_norm" => "euclidean"
  | "dot_product" => "dotproduct"
  | _ => "cosine"

/-- C3: the metric mapping round-trips over the supported set: for each
metric in {cosine, euclidean, dotproduct},
`mapSimilarityToMetric (mapMetricToSimilarity m) = m`. -/
theorem metric_roundtrip_bijection :
    mapSimilarityToMetric (mapMetricToSimilarity "cosine") = "cosine" ∧
    mapSimilarityToMetric (mapMetricToSimilarity "euclidean") = "euclidean" ∧
    mapSimilarityToMetric (mapMetricToSimilarity "dotproduct") = "dotproduct" := by
  refine ⟨?_, ?_, ?_⟩ <;> decide

/-- C4: a `$in` leaf compiles to a `terms` predicate on the `.keyword`
representation of the metadata field; each range leaf (`$gt`, `$gte`, `$lt`,
`$lte`) compiles to a `range` predicate on the raw metadata field without the
`.keyword` suffix; and the empty filter object compiles to no filter at all. -/
theorem filter_translation_shapes (field : String) (vs : List JVal) (n : JVal) :
    buildElasticFilter (JVal.obj [(field, JVal.obj [("$in", JVal.arr vs)])])
      = some (JVal.obj [("bool", JVal.obj [("must", JVal.arr
          [JVal.obj [("terms",
            JVal.obj [("metadata." ++ field ++ ".keyword", JVal.arr vs)])]])])]) ∧
    buildElasticFilter (JVal.obj [(field, JVal.obj [("$gte", n)])])
      = some (JVal.obj [("bool", JVal.obj [("must", JVal.arr
          [JVal.obj [("range",
            JVal.obj [("metadata." ++ field, JVal.obj [("gte", n)])])]])])]) ∧
    buildElasticFilter (JVal.obj [(field, JVal.obj [("$gt", n)])])
      = some (JVal.obj [("bool", JVal.obj [("must", JVal.arr
          [JVal.obj [("range",
            JVal.obj [("metadata." ++ field, JVal.obj [("gt", n)])])]])])]) ∧
    buildElasticFilter (JVal.obj [(field, JVal.obj [("$lt", n)])])
      = some (JVal.obj [("bool", JVal.obj [("must", JVal.arr
          [JVal.obj [("range",
            JVal.obj [("metadata." ++ field, JVal.obj [("lt", n)])])]])])]) ∧
    buildElasticFilter (JVal.obj [(field, JVal.obj [("$lte", n)])])
      = some (JVal.obj [("bool", JVal.obj [("must", JVal.arr
          [JVal.obj [("range",
            JVal.obj [("metadata." ++ field, JVal.obj [("lte", n)])])]])])]) ∧
    buildElasticFilter (JVal.obj []) = none := by
  refine ⟨?_, ?_, ?_, ?_, ?_, ?_⟩ <;> rfl

/-- C6: an entry whose operator object matches no recognized operator is
skipped with a warning and never throws: the compiled filter is exactly what
the remaining entries produce, and when every entry contributes no predicate
the result is no filter at all. -/
theorem filter_unknown_operator_skipped
    (pre post : List (String × JVal)) (k : String) (v : JVal)
    (hwarn : buildLeaf k v = LeafResult.skipWarn) :
    buildElasticFilter (JVal.obj (pre ++ (k, v) :: post))
        = buildElasticFilter (JVal.obj (pre ++ post)) ∧
    (∀ l : List (String × JVal), (∀ p ∈ l, filterEntryPred p = none) →
        buildElasticFilter (JVal.obj l) = none) := by
  constructor
  · have hnone : filterEntryPred (k, v) = none := by
      simp [filterEntryPred, hwarn]
    simp [buildElasticFilter, buildFromEntries, List.filterMap_append,
      List.filterMap_cons, hnone]
  · intro l hl
    have : l.filterMap filterEntryPred = [] := List.filterMap_eq_nil_iff.mpr hl
    simp [buildElasticFilter, buildFromEntries, this]

/-- Witness for C6 at a concrete filter: the `$weird` leaf is dropped, and a
filter consisting only of such leaves compiles to no filter. -/
theorem filter_unknown_operator_skipped_w :
    buildElasticFilter (JVal.obj [("a", JVal.obj [("$eq", JVal.str "x")]),
        ("b", JVal.obj [("$weird", JVal.num 1)])])
      = buildElasticFilter (JVal.obj [("a", JVal.obj [("$eq", JVal.str "x")])]) ∧
    buildElasticFilter (JVal.obj [("b", JVal.obj [("$weird", JVal.num 1)])]) = none := by
  have h := filter_unknown_operator_skipped [("a", JVal.obj [("$eq", JVal.str "x")])] []
    "b" (JVal.obj [("$weird", JVal.num 1)]) rfl
  refine ⟨h.1, h.2 [("b", JVal.obj [("$weird", JVal.num 1)])] ?_⟩
  intro p hp
  rw [List.mem_singleton] at hp
  subst hp
  rfl

/-- C9: an entry whose value is `null` or `undefined` contributes no
predicate and is skipped silently (no warning), and a filter consisting only
of such entries compiles to no filter at all. -/
theorem filter_null_entries_skipped (pre post : List (String × JVal)) (k : String) :
    buildElasticFilter (JVal.obj (pre ++ (k, JVal.null) :: post))
        = buildElasticFilter (JVal.obj (pre ++ post)) ∧
    buildElasticFilter (JVal.obj (pre ++ (k, JVal.undef) :: post))
        = buildElasticFilter (JVal.obj (pre ++ post)) ∧
    buildLeaf k JVal.null = LeafResult.skipSilent ∧
    buildLeaf k JVal.undef = LeafResult.skipSilent ∧
    (∀ l : List (String × JVal),
        (∀ p ∈ l, p.2 = JVal.null ∨ p.2 = JVal.undef) →
        buildElasticFilter (JVal.obj l) = none) := by
  refine ⟨?_, ?_, rfl, rfl, ?_⟩
  · simp [buildElasticFilter, buildFromEntries, List.filterMap_append,
      List.filterMap_cons, filterEntryPred, buildLeaf]
  · simp [buildElasticFilter, buildFromEntries, List.filterMap_append,
      List.filterMap_cons, filterEntryPred, buildLeaf]
  · intro l hl
    have : l.filterMap filterEntryPred = [] := by
      refine List.filterMap_eq_nil_iff.mpr ?_
      intro p hp
      obtain ⟨a, b⟩ := p
      rcases hl (a, b) hp with h | h <;> rw [show b = _ from h] <;> rfl
    simp [buildElasticFilter, buildFromEntries, this]

/-- Witness for C9 at a concrete filter made only of null/undefined entries. -/
theorem filter_null_entries_skipped_w :
    buildElasticFilter (JVal.obj [("x", JVal.null), ("y", JVal.undef)]) = none := by
  have h := (filter_null_entries_skipped [] [] "x").2.2.2.2
  refine h [("x", JVal.null), ("y", JVal.undef)] ?_
  intro p hp
  rcases List.mem_pair.mp hp with h1 | h1 <;> subst h1
  · exact Or.inl rfl
  · exact Or.inr rfl

/-- The detection state held on the adapter instance: the `isServerless` and
`deploymentChecked` fields of `ElasticVector`. -/
structure DetectorState where
  isServerless : Option Bool
  deploymentChecked : Bool

/-- What `this.client.info()` yields when `detectServerless` introspects the
cluster: either the info document (build flavor and tagline fields, each
possibly absent) or a thrown error. -/
inductive IntrospectionResult where
  | ok (buildFlavor : Option String) (tagline : Option String)
  | failure

/-- One `detectServerless` call: the returned flavor, the instance state
after the call, and whether a network (cluster-info) call was made. -/
structure DetectStep where
  result : Bool
  state : DetectorState
  networkCall : Bool

/-- `info.tagline?.toLowerCase().includes('serverless') ?? false`. -/
def taglineIndicatesServerless (tagline : Option String) : Bool :=
  match tagline with
  | some t => (jsToLower t).containsSubstr "serverless"
  | none => false

/-- `detectServerless` (elastic-store.ts lines 82-129): cached result if
already checked; explicit configuration if provided; otherwise one
introspection call, defaulting to standard (false) on failure. -/
def detectServerless (s : DetectorState) (introspection : IntrospectionResult) : DetectStep :=
  if s.deploymentChecked then
    ⟨s.isServerless.getD false, s, false⟩
  else
    match s.isServerless with
    | some b => ⟨b, ⟨some b, true⟩, false⟩
    | none =>
        match introspection with
        | IntrospectionResult.ok bf tag =>
            let isBuildFlavorServerless := bf == some "serverless"
            let isTaglineServerless := taglineIndicatesServerless tag
            let r := isBuildFlavorServerless || isTaglineServerless
            ⟨r, ⟨some r, true⟩, true⟩
        | IntrospectionResult.failure =>
            ⟨false, ⟨some false, true⟩, true⟩

/-- A sequence of `detectServerless` calls on one adapter instance: final
state and the number of network calls made. -/
def runDetect : DetectorState → List IntrospectionResult → DetectorState × Nat
  | s, [] => (s, 0)
  | s, i :: rest =>
      let step := detectServerless s i
      let tail := runDetect step.state rest
      (tail.1, (if step.networkCall then 1 else 0) + tail.2)

theorem runDetect_checked_zero (ob : Option Bool) (nets : List IntrospectionResult) :
    runDetect ⟨ob, true⟩ nets = (⟨ob, true⟩, 0) := by
  induction nets with
  | nil => rfl
  | cons i rest ih => simp [runDetect, detectServerless, ih]

theorem detect_unchecked_state (ob : Option Bool) (i : IntrospectionResult) :
    (detectServerless ⟨ob, false⟩ i).state.deploymentChecked = true := by
  cases ob with
  | some b => rfl
  | none => cases i <;> rfl

/-- C5: deployment detection introspects at most once per adapter instance.
Once checked, every later call returns the cached flavor, leaves the state
unchanged and makes no network call; with an explicit flavor supplied at
construction no network call is ever made over any call sequence; from any
fresh instance state at most one network call happens over any call
sequence; and an introspection failure yields the standard flavor (false),
marks the state checked, and returns normally rather than propagating. -/
theorem detect_serverless_cached_once (ob : Option Bool) (b : Bool)
    (i : IntrospectionResult) (nets : List IntrospectionResult) :
    detectServerless ⟨ob, true⟩ i = ⟨ob.getD false, ⟨ob, true⟩, false⟩ ∧
    (runDetect ⟨some b, false⟩ nets).2 = 0 ∧
    (runDetect ⟨ob, false⟩ nets).2 ≤ 1 ∧
    detectServerless ⟨none, false⟩ IntrospectionResult.failure
      = ⟨false, ⟨some false, true⟩, true⟩ := by
  refine ⟨rfl, ?_, ?_, rfl⟩
  · cases nets with
    | nil => rfl
    | cons i rest => simp [runDetect, detectServerless, runDetect_checked_zero]
  · cases nets with
    | nil => simp [runDetect]
    | cons i rest =>
        cases ob with
        | some b' => simp [runDetect, detectServerless, runDetect_checked_zero]
        | none =>
            cases i with
            | ok bf tag => simp [runDetect, detectServerless, runDetect_checked_zero]
            | failure => simp [runDetect, detectServerless, runDetect_checked_zero]

/-- The embedding values stored in a vector record. -/
abbrev Embedding := List ℚ

/-- The `knnQuery` object built by `query` (elastic-store.ts lines 281-291):
field, k, oversampled candidate count, and the optional compiled pre-filter. -/
structure KnnQuery where
  field : String
  k : Nat
  num_candidates : Nat
  filter : Option JVal

/-- Construction of the k-NN request in `query`: `k := topK`,
`num_candidates := max (topK * 10) 100`, and when a filter argument is
present its compiled form is attached. -/
def buildKnnQuery (topK : Nat) (filter : Option JVal) : KnnQuery :=
  ⟨"vector", topK, max (topK * 10) 100, filter.bind buildElasticFilter⟩

/-- C7: the k-NN search request sets `k` to `topK` and the candidate count to
`max (topK * 10) 100` — at least ten times `topK` and never below 100 — and a
supplied filter is attached compiled as the pre-filter of the k-NN query. -/
theorem query_knn_oversampling (topK : Nat) (g : JVal) (f : Option JVal) :
    (buildKnnQuery topK f).k = topK ∧
    (buildKnnQuery topK f).num_candidates = max (topK * 10) 100 ∧
    topK * 10 ≤ (buildKnnQuery topK f).num_candidates ∧
    100 ≤ (buildKnnQuery topK f).num_candidates ∧
    (buildKnnQuery topK (some g)).filter = buildElasticFilter g ∧
    (buildKnnQuery topK none).filter = none :=
  ⟨rfl, rfl, Nat.le_max_left _ _, Nat.le_max_right _ _, rfl, rfl⟩

/-- The `doc` body sent by `updateVector`: each field present only when the
corresponding update field was supplied. -/
structure UpdateDoc where
  vector : Option Embedding
  metadata : Option JVal

/-- Observable outcome of `updateVector`: either a logged no-op with no
backend request, or one update request carrying the assembled body. -/
inductive UpdateOutcome where
  | noop
  | request (doc : UpdateDoc)

/-- `updateVector` (elastic-store.ts lines 476-510): build `updateBody` from
the supplied fields; if it has no keys, warn and return without any backend
call, else issue the update with that body. -/
def updateVectorModel (vector : Option Embedding) (metadata : Option JVal) : UpdateOutcome :=
  let doc : UpdateDoc := ⟨vector, metadata⟩
  let nkeys := (if doc.vector.isSome then 1 else 0) + (if doc.metadata.isSome then 1 else 0)
  if nkeys = 0 then UpdateOutcome.noop else UpdateOutcome.request doc

/-- C8: `updateVector` is a partial update: with only one of vector/metadata
supplied the request body carries exactly that field and leaves the other
absent, and with neither supplied no backend request is made at all — the
call is a successful no-op. -/
theorem updateVector_selective_fields (v : Embedding) (m : JVal) :
    updateVectorModel (some v) none = UpdateOutcome.request ⟨some v, none⟩ ∧
    updateVectorModel none (some m) = UpdateOutcome.request ⟨none, some m⟩ ∧
    updateVectorModel (some v) (some m) = UpdateOutcome.request ⟨some v, some m⟩ ∧
    updateVectorModel none none = UpdateOutcome.noop :=
  ⟨rfl, rfl, rfl, rfl⟩

/-- The `_source` document of a search hit, as requested by `query`. -/
structure SourceDoc where
  metadata : Option JVal
  vector : Option Embedding

/-- A backend search hit: `_id`, optional `_score`, optional `_source`. -/
structure Hit where
  id : String
  score : Option ℚ
  source : Option SourceDoc

/-- The `QueryResult` shape produced by `query`. -/
structure QueryResultRec where
  id : String
  score : ℚ
  metadata : JVal
  vector : Option Embedding

/-- `hit._source?.metadata`. -/
def hitMetadata (hit : Hit) : Option JVal := hit.source.bind SourceDoc.metadata

/-- `hit._source?.vector`. -/
def hitVector (hit : Hit) : Option Embedding := hit.source.bind SourceDoc.vector

/-- The per-hit result mapping in `query` (elastic-store.ts lines 305-310):
`score := hit._score || 0`, `metadata := hit._source?.metadata || {}`,
`vector := includeVector ? hit._source?.vector : undefined`. -/
def mapHit (includeVector : Bool) (hit : Hit) : QueryResultRec :=
  ⟨hit.id, hit.score.getD 0, (hitMetadata hit).getD (JVal.obj []),
    if includeVector then hitVector hit else none⟩

/-- `response.hits.hits.map(...)` in `query`. -/
def queryResults (includeVector : Bool) (hits : List Hit) : List QueryResultRec :=
  hits.map (mapHit includeVector)

/-- C10: every result `query` returns is total at the public interface: a hit
with no score maps to score 0, a hit with no metadata (no source, or a source
without metadata) maps to the empty metadata object, and the vector field is
populated from the hit only when `includeVector` is true. -/
theorem query_result_totality (iv : Bool) (hit : Hit) (hits : List Hit)
    (hmem : hit ∈ hits) :
    mapHit iv hit ∈ queryResults iv hits ∧
    (hit.score = none → (mapHit iv hit).score = 0) ∧
    (hit.source = none → (mapHit iv hit).metadata = JVal.obj []) ∧
    (∀ sd : SourceDoc, hit.source = some sd → sd.metadata = none →
        (mapHit iv hit).metadata = JVal.obj []) ∧
    (mapHit false hit).vector = none ∧
    (mapHit true hit).vector = hitVector hit := by
  refine ⟨List.mem_map_of_mem _ hmem, ?_, ?_, ?_, rfl, rfl⟩
  · intro h
    simp [mapHit, h]
  · intro h
    simp [mapHit, hitMetadata, h]
  · intro sd hsrc hmeta
    simp [mapHit, hitMetadata, hsrc, hmeta]

/-- Witness for C10 at a concrete hit with no score and no source. -/
theorem query_result_totality_w :
    (mapHit true ⟨"h1", none, none⟩).score = 0 ∧
    (mapHit true ⟨"h1", none, none⟩).metadata = JVal.obj [] ∧
    mapHit true ⟨"h1", none, none⟩ ∈ queryResults true [⟨"h1", none, none⟩] := by
  have h := query_result_totality true ⟨"h1", none, none⟩ [⟨"h1", none, none⟩]
    (List.mem_singleton.mpr rfl)
  exact ⟨h.2.1 rfl, h.2.2.1 rfl, h.1⟩

/-- The dimension and metric an existing index was created with. -/
structure ExistingIndexConfig where
  dimension : Nat
  metric : String

/-- Modelled from the spec: `validateExistingIndex` is called by `createIndex`
(elastic-store.ts line 149) but its definition is not among the provided
sources. Per the spec (section 4.3): "If it exists, validates the existing
schema's dimension and metric against the requested ones; mismatch is a fatal
validation error (surfaced, not auto-migrated)." -/
def validateExistingIndex (existing : ExistingIndexConfig) (dimension : Nat)
    (metric : String) : Except String Unit :=
  if existing.dimension = dimension ∧ existing.metric = metric then
    Except.ok ()
  else
    Except.error ("dimension/metric mismatch: existing ("
      ++ toString existing.dimension ++ ", " ++ existing.metric
      ++ ") requested (" ++ toString dimension ++ ", " ++ metric ++ ")")

/-- The `settings` block attached to an index-create request for standard
(non-serverless) deployments. -/
structure ShardSettings where
  number_of_shards : Nat
  number_of_replicas : Nat

/-- The index-create request `createIndex` issues when the index is absent. -/
structure CreateRequest where
  index : String
  dims : Nat
  similarity : String
  settings : Option ShardSettings

/-- `createIndex` (elastic-store.ts lines 141-205), with the backend state
abstracted: `existing` holds the configuration of the index when it already
exists. `Except.ok none` means the call returned without issuing an
index-create request; `Except.ok (some req)` means request `req` was issued;
`Except.error` is the thrown (wrapped) error. -/
def createIndexModel (existing : Option ExistingIndexConfig) (indexName : String)
    (dimension : Nat) (metric : String) (isServerless : Bool) :
    Except String (Option CreateRequest) :=
  match existing with
  | some cfg =>
      match validateExistingIndex cfg dimension metric with
      | Except.ok _ => Except.ok none
      | Except.error vmsg =>
          Except.error ("Failed to create index \"" ++ indexName
            ++ "\": Index \"" ++ indexName
            ++ "\" exists but does not match the required configuration: " ++ vmsg)
  | none =>
      Except.ok (some ⟨indexName, dimension, mapMetricToSimilarity metric,
        if isServerless then none else some ⟨1, 0⟩⟩)

/-- C2: when the index already exists, a dimension or metric different from
the existing configuration yields a thrown validation error whose message
carries the index name, and no index-create request is issued; when the
existing configuration matches, `createIndex` returns without creating
anything. -/
theorem createIndex_existing_validation (cfg : ExistingIndexConfig)
    (indexName : String) (dimension : Nat) (metric : String) (sv : Bool) :
    (cfg.dimension ≠ dimension ∨ cfg.metric ≠ metric →
        ∃ vmsg, createIndexModel (some cfg) indexName dimension metric sv
          = Except.error ("Failed to create index \"" ++ indexName
              ++ "\": Index \"" ++ indexName
              ++ "\" exists but does not match the required configuration: " ++ vmsg)) ∧
    (∀ req : CreateRequest,
        createIndexModel (some cfg) indexName dimension metric sv
          ≠ Except.ok (some req)) ∧
    (cfg.dimension = dimension ∧ cfg.metric = metric →
        createIndexModel (some cfg) indexName dimension metric sv = Except.ok none) := by
  refine ⟨?_, ?_, ?_⟩
  · intro hmis
    have hne : ¬ (cfg.dimension = dimension ∧ cfg.metric = metric) := by
      intro hc
      rcases hmis with h | h
      · exact h hc.1
      · exact h hc.2
    refine ⟨"dimension/metric mismatch: existing ("
      ++ toString cfg.dimension ++ ", " ++ cfg.metric
      ++ ") requested (" ++ toString dimension ++ ", " ++ metric ++ ")", ?_⟩
    simp [createIndexModel, validateExistingIndex, hne]
  · intro req
    by_cases hc : cfg.dimension = dimension ∧ cfg.metric = metric <;>
      simp [createIndexModel, validateExistingIndex, hc]
  · intro hc
    simp [createIndexModel, validateExistingIndex, hc]

/-- Witness for C2: an index created with dimension 3 rejects a second
creation with dimension 4 (error message carrying the index name, no create
request issued) and accepts a matching re-creation as a no-op. -/
theorem createIndex_existing_validation_w :
    (∃ vmsg, createIndexModel (some ⟨3, "cosine"⟩) "idx" 4 "cosine" false
        = Except.error ("Failed to create index \"" ++ "idx"
            ++ "\": Index \"" ++ "idx"
            ++ "\" exists but does not match the required configuration: " ++ vmsg)) ∧
    createIndexModel (some ⟨3, "cosine"⟩) "idx" 3 "cosine" false = Except.ok none := by
  refine ⟨(createIndex_existing_validation ⟨3, "cosine"⟩ "idx" 4 "cosine" false).1
      (Or.inl (by decide)),
    (createIndex_existing_validation ⟨3, "cosine"⟩ "idx" 3 "cosine" false).2.2 ⟨rfl, rfl⟩⟩

/-- One item of a bulk response: the document id and the `index.error` field
(`none` when the operation succeeded). -/
structure BulkItem where
  id : String
  error : Option String

/-- The bulk response consumed by `upsert`: the `errors` flag and the
per-operation items. -/
structure BulkResponse where
  errors : Bool
  items : List BulkItem

/-- `item.index?.error` is present: the item failed the batched write. -/
def itemFailed (it : BulkItem) : Bool := it.error.isSome

/-- Observable outcome of `upsert`: the returned id list, or a thrown error. -/
inductive UpsertResult where
  | ok (ids : List String)
  | err (msg : String)

/-- The response handling of `upsert` (elastic-store.ts lines 233-263): on a
response with `errors`, collect the errored ids, keep the input ids not among
them, throw when none survived, and otherwise return the survivors; without
`errors`, return all input ids. -/
def upsertOutcome (vectorIds : List String) (resp : BulkResponse) : UpsertResult :=
  if resp.errors then
    let erroredItems := resp.items.filter itemFailed
    let erroredIds := erroredItems.map BulkItem.id
    let successfulIds := vectorIds.filter (fun i => !(erroredIds.contains i))
    if successfulIds.length = 0 then
      UpsertResult.err ("Failed to upsert " ++ toString erroredIds.length ++ "/"
        ++ toString vectorIds.length
        ++ " vectors. All operations failed. See logs for details.")
    else
      UpsertResult.ok successfulIds
  else
    UpsertResult.ok vectorIds

theorem errored_contains_eq (l : List BulkItem) (x : BulkItem)
    (hnodup : (l.map BulkItem.id).Nodup) (hx : x ∈ l) :
    ((l.filter itemFailed).map BulkItem.id).contains x.id = itemFailed x := by
  by_cases hf : itemFailed x = true
  · rw [hf]
    simp only [List.contains, List.elem_eq_mem, decide_eq_true_eq]
    exact List.mem_map_of_mem _ (List.mem_filter.mpr ⟨hx, hf⟩)
  · rw [Bool.eq_false_iff.mpr hf]
    simp only [List.contains, List.elem_eq_mem, decide_eq_false_iff_not]
    intro hmem
    rcases List.mem_map.mp hmem with ⟨y, hy, hyid⟩
    rcases List.mem_filter.mp hy with ⟨hyl, hyf⟩
    have : y = x := List.inj_on_of_nodup_map hnodup hyl hx hyid
    exact hf (this ▸ hyf)

theorem successful_ids_eq (l : List BulkItem)
    (hnodup : (l.map BulkItem.id).Nodup) :
    (l.map BulkItem.id).filter
        (fun i => !(((l.filter itemFailed).map BulkItem.id).contains i))
      = (l.filter (fun it => !(itemFailed it))).map BulkItem.id := by
  rw [List.filter_map]
  have : l.filter ((fun i => !(((l.filter itemFailed).map BulkItem.id).contains i))
        ∘ BulkItem.id)
      = l.filter (fun it => !(itemFailed it)) := by
    refine List.filter_congr ?_
    intro x hx
    simp only [Function.comp]
    rw [errored_contains_eq l x hnodup hx]
  rw [this]

theorem length_filter_not_failed (l : List BulkItem) :
    (l.filter (fun it => !(itemFailed it))).length
      = l.length - (l.filter itemFailed).length := by
  induction l with
  | nil => rfl
  | cons x t ih =>
      have hle := List.length_filter_le itemFailed t
      by_cases hx : itemFailed x = true
      · simp [List.filter_cons, hx]
        omega
      · simp [List.filter_cons, hx]
        omega

/-- C1: on a batch of N records of which M failed the batched write, if
M < N then `upsert` does not throw and returns exactly the N−M ids of the
records that succeeded, drawn from the input ids in order (a sublist); and
`upsert` throws only when M = N, i.e. when all items failed. Hypotheses: the
response items correspond positionally to the input ids, the `errors` flag
is set exactly when some item failed, and the ids are distinct (ids are
unique within an index; generated ids are distinct by construction). -/
theorem upsert_mixed_failure_ids (ids : List String) (resp : BulkResponse)
    (hids : resp.items.map BulkItem.id = ids)
    (herr : resp.errors = resp.items.any itemFailed)
    (hnodup : ids.Nodup) :
    ((resp.items.filter itemFailed).length < ids.length →
        upsertOutcome ids resp
            = UpsertResult.ok
                ((resp.items.filter (fun it => !(itemFailed it))).map BulkItem.id) ∧
        ((resp.items.filter (fun it => !(itemFailed it))).map BulkItem.id).length
            = ids.length - (resp.items.filter itemFailed).length ∧
        List.Sublist
          ((resp.items.filter (fun it => !(itemFailed it))).map BulkItem.id) ids) ∧
    (∀ msg, upsertOutcome ids resp = UpsertResult.err msg →
        (resp.items.filter itemFailed).length = ids.length) := by
  subst hids
  have hlen : ((resp.items.filter (fun it => !(itemFailed it))).map BulkItem.id).length
      = (resp.items.map BulkItem.id).length - (resp.items.filter itemFailed).length := by
    rw [List.length_map, List.length_map, length_filter_not_failed]
  have hsub : List.Sublist
      ((resp.items.filter (fun it => !(itemFailed it))).map BulkItem.id)
      (resp.items.map BulkItem.id) :=
    List.Sublist.map BulkItem.id (List.filter_sublist resp.items)
  constructor
  · intro hM
    refine ⟨?_, hlen, hsub⟩
    by_cases hany : resp.items.any itemFailed = true
    · have hS := successful_ids_eq resp.items hnodup
      have hpos : 0 < ((resp.items.filter (fun it => !(itemFailed it))).map BulkItem.id).length := by
        omega
      rw [upsertOutcome, herr, hany]
      simp only [if_true]
      rw [hS]
      rw [if_neg (by omega)]
    · have hall : ∀ x ∈ resp.items, ¬ itemFailed x = true :=
        List.any_eq_false.mp (Bool.eq_false_iff.mpr hany)
      have hfilter : resp.items.filter (fun it => !(itemFailed it)) = resp.items :=
        List.filter_eq_self.mpr (fun a ha => by
          rw [Bool.eq_false_iff.mpr (hall a ha)]
          rfl)
      rw [upsertOutcome, herr, Bool.eq_false_iff.mpr hany, hfilter]
      simp
  · intro msg hout
    have hMle : (resp.items.filter itemFailed).length ≤ (resp.items.map BulkItem.id).length := by
      rw [List.length_map]
      exact List.length_filter_le _ _
    by_cases herrs : resp.errors = true
    · rw [upsertOutcome, herrs] at hout
      simp only [if_true] at hout
      rw [successful_ids_eq resp.items hnodup] at hout
      by_cases hz : ((resp.items.filter (fun it => !(itemFailed it))).map BulkItem.id).length = 0
      · omega
      · rw [if_neg hz] at hout
        exact absurd hout (by simp)
    · rw [upsertOutcome, Bool.eq_false_iff.mpr herrs] at hout
      simp only [if_false] at hout
      exact absurd hout (by simp)

/-- Witness for C1: three records with one failure return the two surviving
ids in order. -/
theorem upsert_mixed_failure_ids_w :
    upsertOutcome ["a", "b", "c"]
        ⟨true, [⟨"a", none⟩, ⟨"b", some "mapper_parsing_exception"⟩, ⟨"c", none⟩]⟩
      = UpsertResult.ok ["a", "c"] := by
  have h := (upsert_mixed_failure_ids ["a", "b", "c"]
      ⟨true, [⟨"a", none⟩, ⟨"b", some "mapper_parsing_exception"⟩, ⟨"c", none⟩]⟩
      rfl (by decide) (by decide)).1 (by decide)
  exact h.1
